import Mathlib

/-!
Verification of the rcxwatcher batch script (watcher.py).

The script reads a list of raw instrument file paths, classifies each path,
ensures eligible files are linked into a remote Galaxy data library, and
invokes a remote conversion workflow for files not yet converted.

Strings are modelled as lists of characters (`Str`).  The Python path
helpers used by the script (posixpath split / normpath / join, str.strip)
are embedded faithfully below.  The remote Galaxy service is an external
collaborator: it is modelled as an explicit state (folders with full path
names, folder contents, a fresh-id counter) and every remote operation is
recorded in a call list, so theorems can speak about which remote calls a
run performs.  The local filesystem is modelled as an existence predicate
`Str → Bool`, matching the script's use of os.path.exists only.
-/

abbrev Str := List Char

/-- Python str.isspace for the ASCII whitespace characters. -/
def pyIsSpace (c : Char) : Bool :=
  c = ' ' || c = '\t' || c = '\n' || c = '\x0b' || c = '\x0c' || c = '\r'

/-- Python str.strip() (no argument): remove whitespace from both ends. -/
def stripWs (l : Str) : Str :=
  ((l.dropWhile pyIsSpace).reverse.dropWhile pyIsSpace).reverse

/-- Python str.strip("\n"): remove newline characters from both ends. -/
def stripNl (l : Str) : Str :=
  ((l.dropWhile (fun c => c == '\n')).reverse.dropWhile (fun c => c == '\n')).reverse

/-- Remove trailing slashes (Python str.rstrip("/")). -/
def rstripSlashes (s : Str) : Str :=
  (s.reverse.dropWhile (fun c => c == '/')).reverse

/-- posixpath.split: split a path at the final slash; the head keeps no
trailing slashes unless it consists only of slashes. -/
def pySplit (p : Str) : Str × Str :=
  let t := (p.reverse.takeWhile (fun c => c ≠ '/')).reverse
  let h := (p.reverse.dropWhile (fun c => c ≠ '/')).reverse
  (if h.all (fun c => c = '/') then h else rstripSlashes h, t)

/-- Python str.split("/"): split on every slash, keeping empty pieces. -/
def splitSlash : Str → List Str
  | [] => [[]]
  | c :: cs =>
    match splitSlash cs with
    | [] => [[]]
    | h :: t => if c = '/' then [] :: h :: t else (c :: h) :: t

/-- The component loop of posixpath.normpath: drop empty and "." pieces,
resolve ".." against the accumulated components. -/
def normComps (initialSlashes : Bool) : List Str → List Str → List Str
  | [], acc => acc
  | comp :: rest, acc =>
    if comp = [] ∨ comp = ['.'] then normComps initialSlashes rest acc
    else if comp ≠ ['.', '.'] ∨ (initialSlashes = false ∧ acc = []) ∨
            (acc ≠ [] ∧ acc.getLast? = some ['.', '.']) then
      normComps initialSlashes rest (acc ++ [comp])
    else if acc ≠ [] then normComps initialSlashes rest acc.dropLast
    else normComps initialSlashes rest acc

/-- posixpath.normpath. -/
def pyNormpath (p : Str) : Str :=
  if p = [] then ['.']
  else
    let initialSlashes : Nat :=
      if p.head? = some '/' then
        if p.take 2 = ['/', '/'] ∧ p.take 3 ≠ ['/', '/', '/'] then 2 else 1
      else 0
    let comps := normComps (decide (0 < initialSlashes)) (splitSlash p) []
    let joined := List.replicate initialSlashes '/' ++ List.intercalate ['/'] comps
    if joined = [] then ['.'] else joined

/-- posixpath.join for two arguments. -/
def pyJoin2 (a b : Str) : Str :=
  if b.head? = some '/' then b
  else if a = [] ∨ a.getLast? = some '/' then a ++ b
  else a ++ '/' :: b

/-- posixpath.join folded over the remaining arguments. -/
def pyJoin (a : Str) (rest : List Str) : Str :=
  rest.foldl pyJoin2 a

/-- Elementwise common-prefix length of two component lists
(os.path.commonprefix applied to lists). -/
def commonPrefixLen : List Str → List Str → Nat
  | a :: as, b :: bs => if a = b then commonPrefixLen as bs + 1 else 0
  | _, _ => 0

/-- Modelled from os.path.relpath for the case where both arguments are
absolute paths (the only case arising in this program, since both arguments
start with the absolute export prefix): abspath reduces to normpath. -/
def relpathAbs (path start : Str) : Str :=
  let startList := (splitSlash (pyNormpath start)).filter (fun x => x ≠ [])
  let pathList := (splitSlash (pyNormpath path)).filter (fun x => x ≠ [])
  let i := commonPrefixLen startList pathList
  let rel := List.replicate (startList.length - i) ['.', '.'] ++ pathList.drop i
  if rel = [] then ['.'] else List.intercalate ['/'] rel

/-- Does a string start with the given needle? -/
def isPre : Str → Str → Bool
  | [], _ => true
  | _ :: _, [] => false
  | a :: as, b :: bs => a == b && isPre as bs

/-- Substring containment, the meaning of Python str.rfind(sub) != -1. -/
def containsSub (needle : Str) : Str → Bool
  | [] => isPre needle []
  | c :: t => isPre needle (c :: t) || containsSub needle t

/-- A remote library folder: an opaque id (modelled as Nat) and its full
slash-prefixed path name, as returned by the Galaxy folder listing. -/
structure Folder where
  id : Nat
  name : Str
deriving DecidableEq

/-- A library dataset handle: an opaque id (modelled as Nat) and a name. -/
structure Dataset where
  id : Nat
  name : Str
deriving DecidableEq

/-- One remote call issued by the script, in the order performed. -/
inductive RCall where
  | getFoldersByName (query : Str)
  | getFoldersById (folderId : Nat)
  | createFolder (folderName : Str) (baseFolderId : Nat)
  | showFolder (folderId : Nat)
  | upload (filesystemPath : Str) (folderId : Nat) (fileType : Str) (datasetId : Nat)
  | invokeWorkflow (workflowId : Str) (inputDatasetId : Nat) (remotePath : Str)
      (historyName : Str)
deriving DecidableEq

/-- The remote Galaxy library state: the folders that exist (with full path
names), each folder's datasets, and a fresh-id counter for created objects. -/
structure GState where
  folders : List Folder
  contents : List (Nat × Dataset)
  nextId : Nat
deriving DecidableEq

def EXPORT_PATH_PREFIX : Str := "/mnt/sally/000020-Shares/rcx-da/".data

def MZML_FOLDER_NAME : Str := "mzML_profile".data

def ALLOWED_RAW_FILES_FOLDER_NAMES : List Str :=
  ["RAW_profile".data, "RAW".data, "raw".data]

def CONVERSION_WORKFLOW_ID : Str := "13cea0e6d733b865".data

def THERMO_FILE_TYPE : Str := "thermo.raw".data

def MZML_FILE_TYPE : Str := "mzml".data

def JSON_FILE_TYPE : Str := "json".data

/-- The library root folder id (an opaque Galaxy id in the source; modelled
as the distinguished Nat 0, with created ids drawn from the counter). -/
def LIBRARY_ROOT_FOLDER_ID : Nat := 0

/-- get_mzml_path: split off the file name, go to the parent-of-parent
directory, descend into the mzML_profile sibling, drop the last 4 characters
of the file name and append ".mzml", all joined onto the export prefix. -/
def get_mzml_path (raw_file_path : Str) : Str :=
  let raw_dir := (pySplit raw_file_path).1
  let raw_file := (pySplit raw_file_path).2
  pyJoin EXPORT_PATH_PREFIX
    [(pySplit raw_dir).1, MZML_FOLDER_NAME,
      raw_file.take (raw_file.length - 4) ++ ".mzml".data]

/-- is_converted: a raw file counts as converted iff its derived mzml path
exists on the local filesystem (os.path.exists), nothing else is inspected. -/
def is_converted (fs : Str → Bool) (raw_file_path : Str) : Bool :=
  if fs (get_mzml_path raw_file_path) then true else false

/-- is_allowed_raw_path: the normalized parent directory must contain one of
the allowed folder names as a substring (Python rfind != -1). -/
def is_allowed_raw_path (raw_file_path : Str) : Bool :=
  let raw_dir := (pySplit raw_file_path).1
  let path := pyNormpath raw_dir
  ALLOWED_RAW_FILES_FOLDER_NAMES.any (fun allowed_name => containsSub allowed_name path)

/-- The datasets listed in a folder (gi.folders.show_folder contents). -/
def itemsOf (s : GState) (folderId : Nat) : List Dataset :=
  (s.contents.filter (fun pr => pr.1 == folderId)).map (fun pr => pr.2)

/-- The folder loop of get_library_dataset: for each snapshot folder whose
name (with leading slashes stripped) equals the file's directory, list its
contents and take the first item with the file's name; the outer loop has no
break, so a later matching folder overwrites an earlier find. -/
def gldLoop (s : GState) (fileDir fileName : Str) :
    List Folder → Option Dataset → List RCall → Option Dataset × List RCall
  | [], acc, calls => (acc, calls)
  | folder :: rest, acc, calls =>
    if fileDir == folder.name.dropWhile (fun ch => ch == '/') then
      match (itemsOf s folder.id).find? (fun item => item.name == fileName) with
      | some item => gldLoop s fileDir fileName rest (some item) (calls ++ [RCall.showFolder folder.id])
      | none => gldLoop s fileDir fileName rest acc (calls ++ [RCall.showFolder folder.id])
    else gldLoop s fileDir fileName rest acc calls

/-- get_library_dataset: look the file up in the startup snapshot of library
folders, returning the found dataset (if any) and the remote calls made. -/
def get_library_dataset (snapshot : List Folder) (s : GState) (file_path : Str) :
    Option Dataset × List RCall :=
  gldLoop s (pySplit file_path).1 (pySplit file_path).2 snapshot none []

/-- gi.libraries.create_folder: creates a folder under the given base folder;
its full path name extends the parent's name (the root's name is empty). -/
def createFolder (s : GState) (folderName : Str) (baseFolderId : Nat) : Folder × GState :=
  let parentName :=
    match s.folders.find? (fun f => f.id == baseFolderId) with
    | some f => f.name
    | none => []
  let nf : Folder := ⟨s.nextId, parentName ++ '/' :: folderName⟩
  (nf, { s with folders := s.folders ++ [nf], nextId := s.nextId + 1 })

/-- The error message raised on an ambiguous remote folder query. -/
def multipleFoldersMsg (remotePath : Str) : Str :=
  "Multiple remote folders found for ".data ++ remotePath

/-- The while-loop of link_to_data_library: for each path component, extend
the cumulative remote path, query the library for a folder of that exact
name; more than one match raises, zero matches creates the folder, exactly
one match descends into it.  Returns the deepest folder id, the final remote
state, and the calls made. -/
def linkLoop : GState → Nat → Str → List Str → Except Str (Nat × GState × List RCall)
  | s, parentFolderId, _, [] => Except.ok (parentFolderId, s, [])
  | s, parentFolderId, remotePath, currentName :: rest =>
    let rp := remotePath ++ '/' :: currentName
    match s.folders.filter (fun f => f.name == rp) with
    | [] =>
      let created := createFolder s currentName parentFolderId
      match linkLoop created.2 created.1.id rp rest with
      | Except.error e => Except.error e
      | Except.ok (pid, s2, calls) =>
        Except.ok (pid, s2,
          RCall.getFoldersByName rp :: RCall.createFolder currentName parentFolderId :: calls)
    | [f] =>
      match linkLoop s f.id rp rest with
      | Except.error e => Except.error e
      | Except.ok (pid, s2, calls) =>
        Except.ok (pid, s2, RCall.getFoldersByName rp :: calls)
    | _ => Except.error (multipleFoldersMsg rp)

/-- gi.libraries.upload_from_galaxy_filesystem with link_data_only: registers
a dataset (by reference) in the given folder and returns its handle. -/
def uploadFS (s : GState) (filesystemPath : Str) (folderId : Nat) : Dataset × GState :=
  let ds : Dataset := ⟨s.nextId, (pySplit filesystemPath).2⟩
  (ds, { s with nextId := s.nextId + 1, contents := s.contents ++ [(folderId, ds)] })

/-- The directory components link_to_data_library walks: the normalized
directory part of the path split on slashes. -/
def dirComponents (p : Str) : List Str :=
  splitSlash (pyNormpath (pySplit p).1)

/-- link_to_data_library: resolve (creating as needed) the remote folder
chain for the file's directory, then upload the file by reference into the
deepest folder; the query by folder id after the loop mirrors the source's
unused lookup. -/
def link_to_data_library (s : GState) (given_file_path : Str) (file_type : Str) :
    Except Str (Dataset × GState × List RCall) :=
  match linkLoop s LIBRARY_ROOT_FOLDER_ID [] (dirComponents given_file_path) with
  | Except.error e => Except.error e
  | Except.ok (pid, s1, calls) =>
    let filesystem_path := pyJoin2 EXPORT_PATH_PREFIX given_file_path
    let up := uploadFS s1 filesystem_path pid
    Except.ok (up.1, up.2,
      calls ++ [RCall.getFoldersById pid,
        RCall.upload filesystem_path pid file_type up.1.id])

/-- ensure_library_link: return the dataset found by lookup, otherwise link
the file into the library. -/
def ensure_library_link (snapshot : List Folder) (s : GState) (file_path file_type : Str) :
    Except Str (Dataset × GState × List RCall) :=
  match get_library_dataset snapshot s file_path with
  | (some d, calls) => Except.ok (d, s, calls)
  | (none, calls) =>
    match link_to_data_library s file_path file_type with
    | Except.error e => Except.error e
    | Except.ok (ds, s1, calls2) => Except.ok (ds, s1, calls ++ calls2)

/-- run_conversion_workflow: the workflow invocation call, with the library
dataset as principal input, the derived mzml path as parameter, and a history
named after the dataset. -/
def run_conversion_workflow (library_dataset : Dataset) (raw_file_path : Str) : RCall :=
  RCall.invokeWorkflow CONVERSION_WORKFLOW_ID library_dataset.id
    (get_mzml_path raw_file_path)
    ("conversion of ".data ++ library_dataset.name)

/-- ensure_converted_links: ensure the derived mzml and json artifacts are
linked (the txt link is commented out in the source). -/
def ensure_converted_links (snapshot : List Folder) (s : GState) (raw_file_path : Str) :
    Except Str (GState × List RCall) :=
  let mzml_path := relpathAbs (get_mzml_path raw_file_path) EXPORT_PATH_PREFIX
  let json_path := mzml_path.take (mzml_path.length - 5) ++ ".json".data
  match ensure_library_link snapshot s mzml_path MZML_FILE_TYPE with
  | Except.error e => Except.error e
  | Except.ok (_, s1, calls1) =>
    match ensure_library_link snapshot s1 json_path JSON_FILE_TYPE with
    | Except.error e => Except.error e
    | Except.ok (_, s2, calls2) => Except.ok (s2, calls1 ++ calls2)

/-- The two boolean mode flags of the command line. -/
structure Flags where
  importRawOnly : Bool
  importResultsOnly : Bool
deriving DecidableEq

/-- The normalization main applies to an input line before classification. -/
def normLine (line : Str) : Str :=
  pyNormpath (stripNl (stripWs line))

/-- The body of main's per-line loop: normalize, classify (skipping illegal
paths), then branch on the operating mode. -/
def processLine (flags : Flags) (fs : Str → Bool) (snapshot : List Folder)
    (s : GState) (line : Str) : Except Str (GState × List RCall) :=
  let raw_file_path := normLine line
  if !(is_allowed_raw_path raw_file_path) then Except.ok (s, [])
  else if flags.importRawOnly then
    match ensure_library_link snapshot s raw_file_path THERMO_FILE_TYPE with
    | Except.error e => Except.error e
    | Except.ok (_, s1, calls) => Except.ok (s1, calls)
  else if flags.importResultsOnly then
    if is_converted fs raw_file_path then ensure_converted_links snapshot s raw_file_path
    else Except.ok (s, [])
  else if !(is_converted fs raw_file_path) then
    match ensure_library_link snapshot s raw_file_path THERMO_FILE_TYPE with
    | Except.error e => Except.error e
    | Except.ok (ds, s1, calls) =>
      Except.ok (s1, calls ++ [run_conversion_workflow ds raw_file_path])
  else ensure_converted_links snapshot s raw_file_path

/-- main's loop over the input list: an unhandled error aborts the run,
leaving the remaining lines unprocessed. -/
def mainLoop (flags : Flags) (fs : Str → Bool) (snapshot : List Folder) :
    GState → List Str → Except Str (GState × List RCall)
  | s, [] => Except.ok (s, [])
  | s, line :: rest =>
    match processLine flags fs snapshot s line with
    | Except.error e => Except.error e
    | Except.ok (s1, calls1) =>
      match mainLoop flags fs snapshot s1 rest with
      | Except.error e => Except.error e
      | Except.ok (s2, calls2) => Except.ok (s2, calls1 ++ calls2)

/-- Is a call a folder creation? -/
def isCreate : RCall → Bool
  | RCall.createFolder _ _ => true
  | _ => false

/-- Is a call a reference upload? -/
def isUpload : RCall → Bool
  | RCall.upload _ _ _ _ => true
  | _ => false

/-- Is a call a workflow invocation? -/
def isInvoke : RCall → Bool
  | RCall.invokeWorkflow _ _ _ _ => true
  | _ => false

/-- The folder-name queries among a list of calls, in order. -/
def queriesOf (calls : List RCall) : List Str :=
  calls.filterMap (fun c => match c with
    | RCall.getFoldersByName q => some q
    | _ => none)

/-- The cumulative slash-separated remote paths the folder loop queries. -/
def cumPaths : Str → List Str → List Str
  | _, [] => []
  | rp, c :: rest => (rp ++ '/' :: c) :: cumPaths (rp ++ '/' :: c) rest

/-- The remote path reached after consuming the given components. -/
def extendPath : Str → List Str → Str
  | rp, [] => rp
  | rp, c :: rest => extendPath (rp ++ '/' :: c) rest

/-- The folder id reached by descending through existing unique matches. -/
def walkExisting (s : GState) : Nat → List Str → Nat
  | pid, [] => pid
  | pid, cp :: rest =>
    match s.folders.filter (fun f => f.name == cp) with
    | [f] => walkExisting s f.id rest
    | _ => walkExisting s pid rest

/-- Invariant for runs over a library whose folders are all at strictly
shallower remote paths than the loop's next query: every folder name is no
longer than the current remote path, ids are below the fresh counter, and the
current parent id resolves to a folder named by the current remote path (or
is absent, at the root). -/
def InvFresh (s : GState) (pid : Nat) (rp : Str) : Prop :=
  (∀ f ∈ s.folders, f.name.length ≤ rp.length ∧ f.id < s.nextId) ∧
  ((s.folders.find? (fun f => f.id == pid) = none ∧ rp = []) ∨
    (∃ f, s.folders.find? (fun g => g.id == pid) = some f ∧ f.name = rp))

example : pySplit "a/b/c.raw".data = ("a/b".data, "c.raw".data) := by decide
example : pySplit ".".data = ([], ['.']) := by decide
example : pySplit "/a".data = (['/'], ['a']) := by decide
example : pyNormpath "./H2/x".data = "H2/x".data := by decide
example : pyNormpath [] = ['.'] := by decide
example : pyNormpath "a/./b//c".data = "a/b/c".data := by decide
example : pyJoin "/p/".data ["a/b".data, "mz".data, "f.mzml".data] = "/p/a/b/mz/f.mzml".data := by decide
example : containsSub "raw".data "x/braw_p".data = true := by decide
example : containsSub "raw".data "x/bar".data = false := by decide
example : relpathAbs "/m/a/mz/f.mzml".data "/m/".data = "a/mz/f.mzml".data := by decide

/-! ## General list helpers -/

theorem takeWhile_append_all {α} (p : α → Bool) (l1 l2 : List α)
    (h : ∀ x ∈ l1, p x = true) :
    (l1 ++ l2).takeWhile p = l1 ++ l2.takeWhile p := by
  induction l1 with
  | nil => rfl
  | cons a t ih =>
    have ha := h a (by simp)
    simp only [List.cons_append, List.takeWhile_cons, ha, if_true]
    rw [ih (fun x hx => h x (by simp [hx]))]

theorem dropWhile_append_all {α} (p : α → Bool) (l1 l2 : List α)
    (h : ∀ x ∈ l1, p x = true) :
    (l1 ++ l2).dropWhile p = l2.dropWhile p := by
  induction l1 with
  | nil => rfl
  | cons a t ih =>
    have ha := h a (by simp)
    simp only [List.cons_append, List.dropWhile_cons, ha, if_true]
    exact ih (fun x hx => h x (by simp [hx]))

theorem find?_append_of_none {α} (p : α → Bool) (l1 l2 : List α)
    (h : l1.find? p = none) : (l1 ++ l2).find? p = l2.find? p := by
  induction l1 with
  | nil => rfl
  | cons a t ih =>
    rcases hpa : p a with _ | _
    · rw [List.find?_cons_of_neg _ (by simp [hpa])] at h
      rw [List.cons_append, List.find?_cons_of_neg _ (by simp [hpa])]
      exact ih h
    · rw [List.find?_cons_of_pos _ hpa] at h
      simp at h

theorem head?_ne_of_not_mem {α} {l : List α} {a : α} (h : a ∉ l) : l.head? ≠ some a := by
  cases l with
  | nil => simp
  | cons b t =>
    simp only [List.head?_cons, ne_eq, Option.some.injEq]
    intro hb
    exact h (hb ▸ List.mem_cons_self b t)

theorem ne_nil_of_getLast?_ne_none {α} {l : List α} {a : α}
    (h : l.getLast? = some a) : l ≠ [] := by
  intro hn
  rw [hn] at h
  simp at h

/-! ## Facts about the Python path helpers -/

theorem pySplit_snd_not_mem (p : Str) : '/' ∉ (pySplit p).2 := by
  intro hm
  simp only [pySplit, List.mem_reverse] at hm
  have := List.mem_takeWhile_imp hm
  simp at this

theorem pySplit_snd_append (x t : Str) (ht : '/' ∉ t) :
    (pySplit (x ++ '/' :: t)).2 = t := by
  have hrev : (x ++ '/' :: t).reverse = t.reverse ++ '/' :: x.reverse := by
    simp
  have hall : ∀ ch ∈ t.reverse, (fun c => decide (c ≠ '/')) ch = true := by
    intro ch hch
    simp only [decide_eq_true_eq, ne_eq]
    intro hc
    exact ht (hc ▸ (List.mem_reverse.mp hch))
  simp only [pySplit, hrev]
  rw [takeWhile_append_all _ _ _ hall]
  simp

theorem pySplit_concat (y : Str) (c : Char) (t : Str) (hc : c ≠ '/') (ht : '/' ∉ t) :
    pySplit ((y ++ [c]) ++ '/' :: t) = (y ++ [c], t) := by
  have hrev : ((y ++ [c]) ++ '/' :: t).reverse = t.reverse ++ '/' :: c :: y.reverse := by
    simp
  have hall : ∀ ch ∈ t.reverse, (fun ch => decide (ch ≠ '/')) ch = true := by
    intro ch hch
    simp only [decide_eq_true_eq, ne_eq]
    intro hch2
    exact ht (hch2 ▸ (List.mem_reverse.mp hch))
  have htake : (t.reverse ++ '/' :: c :: y.reverse).takeWhile (fun ch => decide (ch ≠ '/')) =
      t.reverse := by
    rw [takeWhile_append_all _ _ _ hall]
    simp
  have hdrop : (t.reverse ++ '/' :: c :: y.reverse).dropWhile (fun ch => decide (ch ≠ '/')) =
      '/' :: c :: y.reverse := by
    rw [dropWhile_append_all _ _ _ hall]
    simp
  have hne : ¬ (((('/' : Char) :: c :: y.reverse).reverse).all (fun ch => decide (ch = '/')) = true) := by
    simp only [List.all_eq_true]
    intro hcon
    have := hcon c (by simp)
    simp only [decide_eq_true_eq] at this
    exact hc this
  simp only [pySplit, hrev, htake, hdrop]
  rw [if_neg hne, Prod.mk.injEq]
  constructor
  · simp only [rstripSlashes, List.reverse_reverse, List.dropWhile_cons]
    simp [hc]
  · simp

theorem pyJoin2_getLast (a b : Str) (hb : b ≠ []) :
    (pyJoin2 a b).getLast? = b.getLast? := by
  unfold pyJoin2
  split
  · rfl
  · split
    · exact List.getLast?_append_of_ne_nil a hb
    · have : a ++ '/' :: b = a ++ ['/'] ++ b := by simp
      rw [this, List.getLast?_append_of_ne_nil _ hb]

theorem pyJoin2_of_ends (a b : Str) (hbh : b.head? ≠ some '/')
    (han : a ≠ []) (hal : a.getLast? ≠ some '/') :
    pyJoin2 a b = a ++ '/' :: b := by
  unfold pyJoin2
  rw [if_neg hbh, if_neg (by simp [han, hal])]

/-! ## Shape of get_mzml_path results -/

theorem mzml_tail_not_mem (raw_file_path : Str) :
    '/' ∉ (pySplit raw_file_path).2.take ((pySplit raw_file_path).2.length - 4) ++
      ".mzml".data := by
  intro hm
  rcases List.mem_append.mp hm with hm1 | hm2
  · exact pySplit_snd_not_mem raw_file_path (List.take_subset _ _ hm1)
  · simp at hm2

theorem get_mzml_path_split (raw_file_path : Str) :
    get_mzml_path raw_file_path =
      pyJoin2 (pyJoin2 EXPORT_PATH_PREFIX (pySplit (pySplit raw_file_path).1).1)
          MZML_FOLDER_NAME ++
        '/' :: ((pySplit raw_file_path).2.take ((pySplit raw_file_path).2.length - 4) ++
          ".mzml".data) := by
  have hA : (pyJoin2 (pyJoin2 EXPORT_PATH_PREFIX (pySplit (pySplit raw_file_path).1).1)
      MZML_FOLDER_NAME).getLast? = some 'e' := by
    rw [pyJoin2_getLast _ _ (by decide)]
    decide
  have hAne : pyJoin2 (pyJoin2 EXPORT_PATH_PREFIX (pySplit (pySplit raw_file_path).1).1)
      MZML_FOLDER_NAME ≠ [] := ne_nil_of_getLast?_ne_none hA
  show pyJoin EXPORT_PATH_PREFIX _ = _
  simp only [pyJoin, List.foldl]
  exact pyJoin2_of_ends _ _ (head?_ne_of_not_mem (mzml_tail_not_mem raw_file_path)) hAne
    (by rw [hA]; decide)

/-- C10: get_mzml_path builds the derived file name by removing exactly the
last 4 characters of the raw file's base name (truncating at zero for names
shorter than 4 characters, Python slicing raw_file[:-4]) and appending
".mzml", with no inspection of the actual extension: the file-name component
of the result always equals the base name minus its final 4 characters plus
".mzml". -/
theorem claim_c10 (raw_file_path : Str) :
    (pySplit (get_mzml_path raw_file_path)).2 =
      (pySplit raw_file_path).2.take ((pySplit raw_file_path).2.length - 4) ++
        ".mzml".data := by
  rw [get_mzml_path_split raw_file_path]
  exact pySplit_snd_append _ _ (mzml_tail_not_mem raw_file_path)

/-- C3: is_converted reports true exactly when the derived mzml path (as
computed by get_mzml_path) exists in the local filesystem, which the model
represents as an existence predicate: no content or checksum enters the
result. -/
theorem claim_c3 (fs : Str → Bool) (raw_file_path : Str) :
    is_converted fs raw_file_path = fs (get_mzml_path raw_file_path) := by
  unfold is_converted
  rcases h : fs (get_mzml_path raw_file_path) with _ | _ <;> simp [h]

/-- C2: for a relative path of the form D/P/name.raw (parent component P and
file name slash-free and non-empty, D relative with no trailing slash), the
derived path replaces the immediate parent P with the sibling folder
mzML_profile, swaps the ".raw" extension for ".mzml", and resolves the
result against the fixed export-root prefix. -/
theorem claim_c2 (d p base : Str) (hd0 : d ≠ []) (hdh : d.head? ≠ some '/')
    (hdl : d.getLast? ≠ some '/') (hp0 : p ≠ []) (hp : '/' ∉ p) (hb : '/' ∉ base) :
    get_mzml_path (d ++ '/' :: (p ++ '/' :: (base ++ ".raw".data))) =
      EXPORT_PATH_PREFIX ++ (d ++ '/' :: (MZML_FOLDER_NAME ++ '/' ::
        (base ++ ".mzml".data))) := by
  have hn : '/' ∉ base ++ ".raw".data := by
    intro hm
    rcases List.mem_append.mp hm with hm1 | hm2
    · exact hb hm1
    · simp at hm2
  rcases List.eq_nil_or_concat p with rfl | ⟨p2, pc, hpeq⟩
  · exact absurd rfl hp0
  rw [List.concat_eq_append] at hpeq
  subst hpeq
  rcases List.eq_nil_or_concat d with rfl | ⟨d2, dc, hdeq⟩
  · exact absurd rfl hd0
  rw [List.concat_eq_append] at hdeq
  subst hdeq
  have hpc : pc ≠ '/' := by
    intro hpc
    exact hp (hpc ▸ (by simp : pc ∈ p2 ++ [pc]))
  have hdc : dc ≠ '/' := by
    intro hdc
    have hgl : (d2 ++ [dc]).getLast? = some dc := by simp
    exact hdl (by rw [hgl, hdc])
  have hsplit1 : pySplit ((d2 ++ [dc]) ++ '/' :: ((p2 ++ [pc]) ++
      '/' :: (base ++ ".raw".data))) =
      ((d2 ++ [dc]) ++ '/' :: (p2 ++ [pc]), base ++ ".raw".data) := by
    have : (d2 ++ [dc]) ++ '/' :: ((p2 ++ [pc]) ++ '/' :: (base ++ ".raw".data)) =
        (((d2 ++ [dc]) ++ '/' :: p2) ++ [pc]) ++ '/' :: (base ++ ".raw".data) := by
      simp
    rw [this, pySplit_concat _ _ _ hpc hn]
    simp
  have hsplit2 : pySplit ((d2 ++ [dc]) ++ '/' :: (p2 ++ [pc])) = (d2 ++ [dc], p2 ++ [pc]) :=
    pySplit_concat d2 dc (p2 ++ [pc]) hdc (by
      rw [show p2 ++ [pc] = p2 ++ [pc] from rfl] at hp
      exact hp)
  have htake : (base ++ ".raw".data).take ((base ++ ".raw".data).length - 4) = base := by
    have hlen : (base ++ ".raw".data).length - 4 = base.length := by
      simp [List.length_append]
    rw [hlen]
    exact List.take_left base ".raw".data
  have hj1 : pyJoin2 EXPORT_PATH_PREFIX (d2 ++ [dc]) =
      EXPORT_PATH_PREFIX ++ (d2 ++ [dc]) := by
    unfold pyJoin2
    rw [if_neg hdh, if_pos (Or.inr (by decide))]
  have hj2 : pyJoin2 (EXPORT_PATH_PREFIX ++ (d2 ++ [dc])) MZML_FOLDER_NAME =
      (EXPORT_PATH_PREFIX ++ (d2 ++ [dc])) ++ '/' :: MZML_FOLDER_NAME := by
    apply pyJoin2_of_ends _ _ (by decide) (by simp [EXPORT_PATH_PREFIX])
    rw [List.getLast?_append_of_ne_nil _ (by simp), List.getLast?_concat]
    simpa using hdc
  unfold get_mzml_path
  rw [hsplit1]
  simp only
  rw [hsplit2]
  simp only [pyJoin, List.foldl]
  rw [htake, hj1, hj2, pyJoin2_of_ends _ _
    (head?_ne_of_not_mem (by
      intro hm
      rcases List.mem_append.mp hm with hm1 | hm2
      · exact hb hm1
      · simp at hm2))
    (by simp [EXPORT_PATH_PREFIX])
    (by
      rw [show (EXPORT_PATH_PREFIX ++ (d2 ++ [dc])) ++ '/' :: MZML_FOLDER_NAME =
          (EXPORT_PATH_PREFIX ++ (d2 ++ [dc])) ++ ('/' :: MZML_FOLDER_NAME) from rfl,
        List.getLast?_append_of_ne_nil _ (by simp)]
      decide)]
  simp

/-- Instantiation of the C2 theorem at the spec's own example shape. -/
theorem claim_c2_witness :
    get_mzml_path "a/b/RAW_profile/sample.raw".data =
      "/mnt/sally/000020-Shares/rcx-da/a/b/mzML_profile/sample.mzml".data := by
  have h := claim_c2 "a/b".data "RAW_profile".data "sample".data (by decide) (by decide)
    (by decide) (by decide) (by decide) (by decide)
  have e1 : "a/b/RAW_profile/sample.raw".data =
      "a/b".data ++ '/' :: ("RAW_profile".data ++ '/' :: ("sample".data ++ ".raw".data)) := by
    decide
  rw [e1, h]
  decide

/-! ## Skipped entries in the batch driver -/

theorem skip_of_not_allowed (flags : Flags) (fs : Str → Bool) (snapshot : List Folder)
    (s : GState) (line : Str) (rest : List Str)
    (hfalse : is_allowed_raw_path (normLine line) = false) :
    processLine flags fs snapshot s line = Except.ok (s, []) ∧
    mainLoop flags fs snapshot s (line :: rest) = mainLoop flags fs snapshot s rest := by
  have hproc : processLine flags fs snapshot s line = Except.ok (s, []) := by
    simp [processLine, hfalse]
  refine ⟨hproc, ?_⟩
  cases hr : mainLoop flags fs snapshot s rest with
  | error e => simp [mainLoop, hproc, hr]
  | ok pr =>
    obtain ⟨s2, c2⟩ := pr
    simp [mainLoop, hproc, hr]

/-- C1: when the normalized parent directory of the (normalized) input line
contains none of the allowed raw-folder markers, the classifier rejects the
path, and the batch driver skips the entry issuing no remote call, leaving
the state untouched and continuing with the remaining entries. -/
theorem claim_c1 (flags : Flags) (fs : Str → Bool) (snapshot : List Folder)
    (s : GState) (line : Str) (rest : List Str)
    (h : ∀ nm ∈ ALLOWED_RAW_FILES_FOLDER_NAMES,
      containsSub nm (pyNormpath (pySplit (normLine line)).1) = false) :
    is_allowed_raw_path (normLine line) = false ∧
    processLine flags fs snapshot s line = Except.ok (s, []) ∧
    mainLoop flags fs snapshot s (line :: rest) = mainLoop flags fs snapshot s rest := by
  have hfalse : is_allowed_raw_path (normLine line) = false := by
    rcases hb : is_allowed_raw_path (normLine line) with _ | _
    · rfl
    · exfalso
      unfold is_allowed_raw_path at hb
      rw [List.any_eq_true] at hb
      obtain ⟨nm, hmem, hsub⟩ := hb
      rw [h nm hmem] at hsub
      exact Bool.false_ne_true hsub
  obtain ⟨h1, h2⟩ := skip_of_not_allowed flags fs snapshot s line rest hfalse
  exact ⟨hfalse, h1, h2⟩

/-- Instantiation of the C1 theorem at a concrete entry with no marker. -/
theorem claim_c1_witness :
    (∀ nm ∈ ALLOWED_RAW_FILES_FOLDER_NAMES,
      containsSub nm (pyNormpath (pySplit (normLine "./foo/bar/x.ext".data)).1) = false) ∧
    is_allowed_raw_path (normLine "./foo/bar/x.ext".data) = false ∧
    processLine ⟨false, false⟩ (fun _ => false) [] ⟨[], [], 1⟩ "./foo/bar/x.ext".data =
      Except.ok (⟨[], [], 1⟩, []) := by
  have hh : ∀ nm ∈ ALLOWED_RAW_FILES_FOLDER_NAMES,
      containsSub nm (pyNormpath (pySplit (normLine "./foo/bar/x.ext".data)).1) = false := by
    decide
  have h := claim_c1 ⟨false, false⟩ (fun _ => false) [] ⟨[], [], 1⟩
    "./foo/bar/x.ext".data [] hh
  exact ⟨hh, h.1, h.2.1⟩

/-- C9: a blank or whitespace-only input line is trimmed to the empty string
and normalized to ".", which the classifier rejects, so the entry is skipped
with no remote call and the run continues with the remaining lines. -/
theorem claim_c9 (flags : Flags) (fs : Str → Bool) (snapshot : List Folder)
    (s : GState) (line : Str) (rest : List Str) (h : line.all pyIsSpace = true) :
    normLine line = ['.'] ∧
    is_allowed_raw_path (normLine line) = false ∧
    processLine flags fs snapshot s line = Except.ok (s, []) ∧
    mainLoop flags fs snapshot s (line :: rest) = mainLoop flags fs snapshot s rest := by
  have hstrip : stripWs line = [] := by
    unfold stripWs
    rw [List.dropWhile_eq_nil_iff.mpr (List.all_eq_true.mp h)]
    rfl
  have h1 : normLine line = ['.'] := by
    unfold normLine
    rw [hstrip]
    rfl
  have hfalse : is_allowed_raw_path (normLine line) = false := by
    rw [h1]
    decide
  obtain ⟨h2, h3⟩ := skip_of_not_allowed flags fs snapshot s line rest hfalse
  exact ⟨h1, hfalse, h2, h3⟩

/-- Instantiation of the C9 theorem at a whitespace-only line. -/
theorem claim_c9_witness :
    (("  \t \n".data).all pyIsSpace = true) ∧
    normLine "  \t \n".data = ['.'] ∧
    processLine ⟨false, false⟩ (fun _ => false) [] ⟨[], [], 1⟩ "  \t \n".data =
      Except.ok (⟨[], [], 1⟩, []) := by
  have hh : ("  \t \n".data).all pyIsSpace = true := by decide
  have h := claim_c9 ⟨false, false⟩ (fun _ => false) [] ⟨[], [], 1⟩ "  \t \n".data [] hh
  exact ⟨hh, h.1, h.2.2.1⟩

/-! ## The folder-resolution loop -/

theorem linkLoop_step_nil (s : GState) (pid : Nat) (rp : Str) (c : Str) (rest : List Str)
    (hf : s.folders.filter (fun f => f.name == rp ++ '/' :: c) = []) :
    linkLoop s pid rp (c :: rest) =
      match linkLoop (createFolder s c pid).2 (createFolder s c pid).1.id
          (rp ++ '/' :: c) rest with
      | Except.error e => Except.error e
      | Except.ok (pid3, s3, calls3) =>
        Except.ok (pid3, s3, RCall.getFoldersByName (rp ++ '/' :: c) ::
          RCall.createFolder c pid :: calls3) := by
  simp only [linkLoop, hf]

theorem linkLoop_step_one (s : GState) (pid : Nat) (rp : Str) (c : Str) (rest : List Str)
    (f : Folder) (hf : s.folders.filter (fun g => g.name == rp ++ '/' :: c) = [f]) :
    linkLoop s pid rp (c :: rest) =
      match linkLoop s f.id (rp ++ '/' :: c) rest with
      | Except.error e => Except.error e
      | Except.ok (pid3, s3, calls3) =>
        Except.ok (pid3, s3, RCall.getFoldersByName (rp ++ '/' :: c) :: calls3) := by
  simp only [linkLoop, hf]

theorem linkLoop_step_many (s : GState) (pid : Nat) (rp : Str) (c : Str) (rest : List Str)
    (f1 f2 : Folder) (t : List Folder)
    (hf : s.folders.filter (fun g => g.name == rp ++ '/' :: c) = f1 :: f2 :: t) :
    linkLoop s pid rp (c :: rest) =
      Except.error (multipleFoldersMsg (rp ++ '/' :: c)) := by
  simp only [linkLoop, hf]

theorem linkLoop_ok_calls (comps : List Str) : ∀ (s : GState) (pid : Nat) (rp : Str)
    (pid2 : Nat) (s2 : GState) (calls : List RCall),
    linkLoop s pid rp comps = Except.ok (pid2, s2, calls) →
    queriesOf calls = cumPaths rp comps ∧ calls.countP isCreate ≤ comps.length := by
  induction comps with
  | nil =>
    intro s pid rp pid2 s2 calls h
    simp only [linkLoop, Except.ok.injEq, Prod.mk.injEq] at h
    obtain ⟨-, -, rfl⟩ := h
    simp [queriesOf, cumPaths]
  | cons c rest ih =>
    intro s pid rp pid2 s2 calls h
    rcases hf : s.folders.filter (fun f => f.name == rp ++ '/' :: c) with _ | ⟨f, _ | ⟨f2, t⟩⟩
    · rw [linkLoop_step_nil s pid rp c rest hf] at h
      rcases hrec : linkLoop (createFolder s c pid).2 (createFolder s c pid).1.id
          (rp ++ '/' :: c) rest with e | ⟨pid3, s3, calls3⟩ <;> rw [hrec] at h
      · simp at h
      · simp only [Except.ok.injEq, Prod.mk.injEq] at h
        obtain ⟨-, -, rfl⟩ := h
        obtain ⟨hq, hc⟩ := ih _ _ _ _ _ _ hrec
        refine ⟨?_, ?_⟩
        · simp only [queriesOf, List.filterMap_cons, cumPaths] at hq ⊢
          simp [hq]
        · simp [List.countP_cons, isCreate]
          omega
    · rw [linkLoop_step_one s pid rp c rest f hf] at h
      rcases hrec : linkLoop s f.id (rp ++ '/' :: c) rest with e | ⟨pid3, s3, calls3⟩ <;>
        rw [hrec] at h
      · simp at h
      · simp only [Except.ok.injEq, Prod.mk.injEq] at h
        obtain ⟨-, -, rfl⟩ := h
        obtain ⟨hq, hc⟩ := ih _ _ _ _ _ _ hrec
        refine ⟨?_, ?_⟩
        · simp only [queriesOf, List.filterMap_cons, cumPaths] at hq ⊢
          simp [hq]
        · simp [List.countP_cons, isCreate]
          omega
    · rw [linkLoop_step_many s pid rp c rest f f2 t hf] at h
      simp at h

theorem linkLoop_all_existing (comps : List Str) : ∀ (s : GState) (pid : Nat) (rp : Str),
    (∀ cp ∈ cumPaths rp comps, (s.folders.filter (fun f => f.name == cp)).length = 1) →
    linkLoop s pid rp comps =
      Except.ok (walkExisting s pid (cumPaths rp comps), s,
        (cumPaths rp comps).map RCall.getFoldersByName) := by
  induction comps with
  | nil => intro s pid rp _; rfl
  | cons c rest ih =>
    intro s pid rp hall
    have h1 : (s.folders.filter (fun f => f.name == rp ++ '/' :: c)).length = 1 :=
      hall _ (by simp [cumPaths])
    obtain ⟨f, hf⟩ := List.length_eq_one.mp h1
    have hrest : ∀ cp ∈ cumPaths (rp ++ '/' :: c) rest,
        (s.folders.filter (fun g => g.name == cp)).length = 1 := by
      intro cp hcp
      exact hall cp (by simp [cumPaths, hcp])
    simp only [linkLoop, hf]
    rw [ih s f.id (rp ++ '/' :: c) hrest]
    simp [cumPaths, walkExisting, hf]

theorem walkExisting_getLast (s : GState) (l : List Str) : ∀ (pid : Nat),
    ∀ lcp f, l.getLast? = some lcp →
    s.folders.filter (fun g => g.name == lcp) = [f] →
    walkExisting s pid l = f.id := by
  induction l with
  | nil => intro pid lcp f h _; simp at h
  | cons cp rest ih =>
    intro pid lcp f hlast hfil
    cases rest with
    | nil =>
      simp only [List.getLast?_singleton, Option.some.injEq] at hlast
      subst hlast
      simp [walkExisting, hfil]
    | cons r rs =>
      rw [List.getLast?_cons_cons] at hlast
      rcases hf : s.folders.filter (fun g => g.name == cp) with _ | ⟨g, _ | _⟩ <;>
        simp only [walkExisting, hf] <;> exact ih _ _ _ hlast hfil

theorem linkLoop_step_existing (s : GState) (pid : Nat) (rp : Str) (c : Str)
    (rest : List Str) (f : Folder)
    (hf : s.folders.filter (fun g => g.name == rp ++ '/' :: c) = [f]) :
    ∀ pid2 s2 calls, linkLoop s f.id (rp ++ '/' :: c) rest = Except.ok (pid2, s2, calls) →
    linkLoop s pid rp (c :: rest) =
      Except.ok (pid2, s2, RCall.getFoldersByName (rp ++ '/' :: c) :: calls) := by
  intro pid2 s2 calls h
  simp only [linkLoop, hf, h]

theorem link_upload_target (s : GState) (q ft : Str) (pid2 : Nat) (s2 : GState)
    (calls : List RCall)
    (h : linkLoop s LIBRARY_ROOT_FOLDER_ID [] (dirComponents q) = Except.ok (pid2, s2, calls)) :
    link_to_data_library s q ft =
      Except.ok (⟨s2.nextId, (pySplit (pyJoin2 EXPORT_PATH_PREFIX q)).2⟩,
        { s2 with
            nextId := s2.nextId + 1,
            contents := s2.contents ++
              [(pid2, ⟨s2.nextId, (pySplit (pyJoin2 EXPORT_PATH_PREFIX q)).2⟩)] },
        calls ++ [RCall.getFoldersById pid2,
          RCall.upload (pyJoin2 EXPORT_PATH_PREFIX q) pid2 ft s2.nextId]) := by
  simp [link_to_data_library, h, uploadFS]

/-- C4: the folder-resolution loop queries exactly the cumulative
slash-separated remote paths in order and creates at most one folder per
component; when every cumulative path has exactly one remote match it
descends through the unique matches with zero creation calls, ending at the
deepest matched folder's id; a component with exactly one match is descended
into without creating; and a successful resolution uploads into the folder
id the loop returned. -/
theorem claim_c4 (s : GState) (pid : Nat) (rp : Str) (comps : List Str) :
    (∀ pid2 s2 calls, linkLoop s pid rp comps = Except.ok (pid2, s2, calls) →
      queriesOf calls = cumPaths rp comps ∧ calls.countP isCreate ≤ comps.length) ∧
    ((∀ cp ∈ cumPaths rp comps, (s.folders.filter (fun f => f.name == cp)).length = 1) →
      linkLoop s pid rp comps =
        Except.ok (walkExisting s pid (cumPaths rp comps), s,
          (cumPaths rp comps).map RCall.getFoldersByName) ∧
      ((cumPaths rp comps).map RCall.getFoldersByName).countP isCreate = 0 ∧
      ∀ lcp f, (cumPaths rp comps).getLast? = some lcp →
        s.folders.filter (fun g => g.name == lcp) = [f] →
        walkExisting s pid (cumPaths rp comps) = f.id) ∧
    (∀ c rest f, s.folders.filter (fun g => g.name == rp ++ '/' :: c) = [f] →
      ∀ pid2 s2 calls, linkLoop s f.id (rp ++ '/' :: c) rest = Except.ok (pid2, s2, calls) →
      linkLoop s pid rp (c :: rest) =
        Except.ok (pid2, s2, RCall.getFoldersByName (rp ++ '/' :: c) :: calls)) ∧
    (∀ q ft pid2 s2 calls,
      linkLoop s LIBRARY_ROOT_FOLDER_ID [] (dirComponents q) = Except.ok (pid2, s2, calls) →
      ∃ ds s3, link_to_data_library s q ft =
        Except.ok (ds, s3, calls ++ [RCall.getFoldersById pid2,
          RCall.upload (pyJoin2 EXPORT_PATH_PREFIX q) pid2 ft ds.id])) := by
  have hzero : ∀ l : List Str, (l.map RCall.getFoldersByName).countP isCreate = 0 := by
    intro l
    induction l with
    | nil => rfl
    | cons a l ih => simp [List.countP_cons, isCreate, ih]
  exact ⟨fun pid2 s2 calls h => linkLoop_ok_calls comps s pid rp pid2 s2 calls h,
    fun hall => ⟨linkLoop_all_existing comps s pid rp hall, hzero _,
      fun lcp f h1 h2 => walkExisting_getLast s (cumPaths rp comps) pid lcp f h1 h2⟩,
    fun c rest f hf => linkLoop_step_existing s pid rp c rest f hf,
    fun q ft pid2 s2 calls h => ⟨_, _, link_upload_target s q ft pid2 s2 calls h⟩⟩

/-- Instantiation of the C4 theorem: a one-component path whose folder
already exists gives a pure query run ending at the existing folder. -/
theorem claim_c4_witness :
    linkLoop ⟨[⟨5, "/a".data⟩], [], 10⟩ 0 [] ["a".data] =
      Except.ok (5, ⟨[⟨5, "/a".data⟩], [], 10⟩, [RCall.getFoldersByName "/a".data]) := by
  have h := (claim_c4 ⟨[⟨5, "/a".data⟩], [], 10⟩ 0 [] ["a".data]).2.1 (by decide)
  have h2 := h.2.2 "/a".data ⟨5, "/a".data⟩ (by decide) (by decide)
  rw [h.1, h2]
  rfl

/-! ## Fatal ambiguity errors -/

theorem linkLoop_ambiguous (comps1 : List Str) : ∀ (s : GState) (pid : Nat) (rp : Str)
    (c : Str) (comps2 : List Str),
    (∀ cp ∈ cumPaths rp comps1, (s.folders.filter (fun f => f.name == cp)).length = 1) →
    1 < (s.folders.filter (fun f => f.name == extendPath rp comps1 ++ '/' :: c)).length →
    linkLoop s pid rp (comps1 ++ c :: comps2) =
      Except.error (multipleFoldersMsg (extendPath rp comps1 ++ '/' :: c)) := by
  induction comps1 with
  | nil =>
    intro s pid rp c comps2 _ h2
    simp only [extendPath, List.nil_append] at h2 ⊢
    rcases hf : s.folders.filter (fun f => f.name == rp ++ '/' :: c) with _ | ⟨f1, _ | ⟨f2, t⟩⟩ <;>
      rw [hf] at h2
    · simp at h2
    · simp at h2
    · exact linkLoop_step_many s pid rp c comps2 f1 f2 t hf
  | cons a rest1 ih =>
    intro s pid rp c comps2 h1 h2
    have ha : (s.folders.filter (fun f => f.name == rp ++ '/' :: a)).length = 1 :=
      h1 _ (by simp [cumPaths])
    obtain ⟨f, hf⟩ := List.length_eq_one.mp ha
    rw [List.cons_append, linkLoop_step_one s pid rp a (rest1 ++ c :: comps2) f hf,
      ih s f.id (rp ++ '/' :: a) c comps2
        (fun cp hcp => h1 cp (by simp [cumPaths, hcp])) h2]
    rfl

theorem ensure_error_prop (snapshot : List Folder) (s : GState) (fp ft : Str) (e : Str)
    (hnone : (get_library_dataset snapshot s fp).1 = none)
    (hlink : link_to_data_library s fp ft = Except.error e) :
    ensure_library_link snapshot s fp ft = Except.error e := by
  unfold ensure_library_link
  rcases hq : get_library_dataset snapshot s fp with ⟨o, cs⟩
  rw [hq] at hnone
  simp only at hnone
  subst hnone
  simp [hlink]

theorem mainLoop_error_prop (flags : Flags) (fs : Str → Bool) (snapshot : List Folder)
    (s : GState) (line : Str) (rest : List Str) (e : Str)
    (h : processLine flags fs snapshot s line = Except.error e) :
    mainLoop flags fs snapshot s (line :: rest) = Except.error e := by
  simp [mainLoop, h]

/-- C5: if, after a run of uniquely-matched components, a cumulative folder
query returns more than one match, the resolution loop raises the
multiple-folders error; lookup misses fall through ensure_library_link to
the failing link call, and an erroring entry aborts the batch loop, leaving
all remaining input lines unprocessed. -/
theorem claim_c5 (s : GState) (pid : Nat) (rp : Str) (comps1 : List Str) (c : Str)
    (comps2 : List Str)
    (h1 : ∀ cp ∈ cumPaths rp comps1, (s.folders.filter (fun f => f.name == cp)).length = 1)
    (h2 : 1 < (s.folders.filter (fun f => f.name == extendPath rp comps1 ++ '/' :: c)).length) :
    linkLoop s pid rp (comps1 ++ c :: comps2) =
      Except.error (multipleFoldersMsg (extendPath rp comps1 ++ '/' :: c)) ∧
    (∀ snapshot s2 fp ft e, (get_library_dataset snapshot s2 fp).1 = none →
      link_to_data_library s2 fp ft = Except.error e →
      ensure_library_link snapshot s2 fp ft = Except.error e) ∧
    (∀ flags fs snapshot s3 line rest e,
      processLine flags fs snapshot s3 line = Except.error e →
      mainLoop flags fs snapshot s3 (line :: rest) = Except.error e) :=
  ⟨linkLoop_ambiguous comps1 s pid rp c comps2 h1 h2,
    fun snapshot s2 fp ft e ha hb => ensure_error_prop snapshot s2 fp ft e ha hb,
    fun flags fs snapshot s3 line rest e h => mainLoop_error_prop flags fs snapshot s3 line rest e h⟩

/-- Instantiation of the C5 theorem: two remote folders named "/RAW" make
the loop fail, and the batch run on a two-line list dies at the first line
with the same error, never reaching the second line. -/
theorem claim_c5_witness :
    linkLoop ⟨[⟨1, "/RAW".data⟩, ⟨2, "/RAW".data⟩], [], 3⟩ 0 [] ["RAW".data] =
      Except.error (multipleFoldersMsg "/RAW".data) ∧
    mainLoop ⟨false, false⟩ (fun _ => false) [] ⟨[⟨1, "/RAW".data⟩, ⟨2, "/RAW".data⟩], [], 3⟩
      ["RAW/x.raw".data, "y".data] = Except.error (multipleFoldersMsg "/RAW".data) := by
  have h := claim_c5 ⟨[⟨1, "/RAW".data⟩, ⟨2, "/RAW".data⟩], [], 3⟩ 0 [] [] "RAW".data []
    (by simp [cumPaths]) (by decide)
  exact ⟨h.1, h.2.2 ⟨false, false⟩ (fun _ => false) [] _ "RAW/x.raw".data ["y".data]
    (multipleFoldersMsg "/RAW".data) (by rfl)⟩

/-! ## Dataset lookup -/

theorem gldLoop_fst_calls (s : GState) (fd fn : Str) (l : List Folder) :
    ∀ (acc : Option Dataset) (c1 c2 : List RCall),
    (gldLoop s fd fn l acc c1).1 = (gldLoop s fd fn l acc c2).1 := by
  induction l with
  | nil => intro acc c1 c2; rfl
  | cons folder rest ih =>
    intro acc c1 c2
    by_cases hc : (fd == folder.name.dropWhile (fun ch => ch == '/')) = true
    · simp only [gldLoop, hc, if_true]
      rcases hfind : (itemsOf s folder.id).find? (fun item => item.name == fn) with _ | item <;>
        rw [hfind]
      · exact ih acc _ _
      · exact ih (some item) _ _
    · simp only [gldLoop, hc, if_false]
      exact ih acc _ _

theorem gldLoop_some_acc (s : GState) (fd fn : Str) (l : List Folder) :
    ∀ (a : Dataset) (calls : List RCall),
    ∃ d, (gldLoop s fd fn l (some a) calls).1 = some d := by
  induction l with
  | nil => intro a calls; exact ⟨a, rfl⟩
  | cons folder rest ih =>
    intro a calls
    by_cases hc : (fd == folder.name.dropWhile (fun ch => ch == '/')) = true
    · simp only [gldLoop, hc, if_true]
      rcases hfind : (itemsOf s folder.id).find? (fun item => item.name == fn) with _ | item <;>
        rw [hfind]
      · exact ih a _
      · exact ih item _
    · simp only [gldLoop, hc, if_false]
      exact ih a _

theorem gldLoop_override (s : GState) (fd fn : Str) (l : List Folder) :
    ∀ (d : Dataset) (c0 : List RCall), (gldLoop s fd fn l none c0).1 = some d →
    ∀ (acc : Option Dataset) (calls : List RCall), (gldLoop s fd fn l acc calls).1 = some d := by
  induction l with
  | nil => intro d c0 h; simp [gldLoop] at h
  | cons folder rest ih =>
    intro d c0 h acc calls
    by_cases hc : (fd == folder.name.dropWhile (fun ch => ch == '/')) = true
    · simp only [gldLoop, hc, if_true] at h ⊢
      rcases hfind : (itemsOf s folder.id).find? (fun item => item.name == fn) with _ | item <;>
        rw [hfind] at h ⊢
      · exact ih d _ h acc _
      · rw [gldLoop_fst_calls s fd fn rest (some item) _
          (c0 ++ [RCall.showFolder folder.id])]
        exact h
    · simp only [gldLoop, hc, if_false] at h ⊢
      exact ih d _ h acc _

theorem gldLoop_append (s : GState) (fd fn : Str) (l1 : List Folder) :
    ∀ (l2 : List Folder) (acc : Option Dataset) (calls : List RCall),
    gldLoop s fd fn (l1 ++ l2) acc calls =
      gldLoop s fd fn l2 (gldLoop s fd fn l1 acc calls).1 (gldLoop s fd fn l1 acc calls).2 := by
  induction l1 with
  | nil => intro l2 acc calls; rfl
  | cons folder rest ih =>
    intro l2 acc calls
    by_cases hc : (fd == folder.name.dropWhile (fun ch => ch == '/')) = true
    · simp only [List.cons_append, gldLoop, hc, if_true]
      rcases hfind : (itemsOf s folder.id).find? (fun item => item.name == fn) with _ | item <;>
        rw [hfind]
      · exact ih l2 acc _
      · exact ih l2 (some item) _
    · simp only [List.cons_append, gldLoop, hc, if_false]
      exact ih l2 acc _

theorem gldLoop_calls_show (s : GState) (fd fn : Str) (l : List Folder) :
    ∀ (acc : Option Dataset) (calls : List RCall) (call : RCall),
    call ∈ (gldLoop s fd fn l acc calls).2 →
    call ∈ calls ∨ ∃ fid, call = RCall.showFolder fid := by
  induction l with
  | nil => intro acc calls call h; exact Or.inl h
  | cons folder rest ih =>
    intro acc calls call h
    by_cases hc : (fd == folder.name.dropWhile (fun ch => ch == '/')) = true
    · simp only [gldLoop, hc, if_true] at h
      rcases hfind : (itemsOf s folder.id).find? (fun item => item.name == fn) with _ | item <;>
        rw [hfind] at h
      all_goals {
        rcases ih _ _ _ h with hin | hsh
        · rcases List.mem_append.mp hin with hin1 | hin2
          · exact Or.inl hin1
          · exact Or.inr ⟨folder.id, by simpa using hin2⟩
        · exact Or.inr hsh }
    · simp only [gldLoop, hc, if_false] at h
      exact ih _ _ _ h

theorem gldLoop_found (s : GState) (fd fn : Str) (l : List Folder) :
    ∀ (acc : Option Dataset) (calls : List RCall),
    (∃ folder ∈ l, fd = folder.name.dropWhile (fun ch => ch == '/') ∧
      ∃ item ∈ itemsOf s folder.id, item.name = fn) →
    ∃ d, (gldLoop s fd fn l acc calls).1 = some d := by
  induction l with
  | nil => intro acc calls h; simp at h
  | cons folder rest ih =>
    intro acc calls ⟨g, hg, hcond⟩
    rcases List.mem_cons.mp hg with rfl | hgr
    · obtain ⟨hdir, item, hitem, hname⟩ := hcond
      have hc : (fd == g.name.dropWhile (fun ch => ch == '/')) = true := by
        simpa using hdir
      have hsome : ((itemsOf s g.id).find? (fun it => it.name == fn)).isSome := by
        rw [List.find?_isSome]
        exact ⟨item, hitem, by simp [hname]⟩
      obtain ⟨item2, hfind⟩ := Option.isSome_iff_exists.mp hsome
      simp only [gldLoop, hc, if_true, hfind]
      exact gldLoop_some_acc s fd fn rest item2 _
    · by_cases hc : (fd == folder.name.dropWhile (fun ch => ch == '/')) = true
      · simp only [gldLoop, hc, if_true]
        rcases hfind : (itemsOf s folder.id).find? (fun item => item.name == fn) with _ | item <;>
          rw [hfind]
        · exact ih _ _ ⟨g, hgr, hcond⟩
        · exact gldLoop_some_acc s fd fn rest item _
      · simp only [gldLoop, hc, if_false]
        exact ih _ _ ⟨g, hgr, hcond⟩

/-- C6: for a file that is already linked (some snapshot folder's stripped
name equals the file's directory and that folder's contents hold the file's
name), the lookup finds a dataset, ensure_library_link returns it with the
remote state unchanged, and every remote call made is a read-only folder
listing: no upload and no folder creation happens, so no duplicate dataset
is created. -/
theorem claim_c6 (snapshot : List Folder) (s : GState) (fp ft : Str)
    (h : ∃ folder ∈ snapshot,
      (pySplit fp).1 = folder.name.dropWhile (fun ch => ch == '/') ∧
      ∃ item ∈ itemsOf s folder.id, item.name = (pySplit fp).2) :
    ∃ d, (get_library_dataset snapshot s fp).1 = some d ∧
      ensure_library_link snapshot s fp ft =
        Except.ok (d, s, (get_library_dataset snapshot s fp).2) ∧
      ∀ call ∈ (get_library_dataset snapshot s fp).2,
        isCreate call = false ∧ isUpload call = false := by
  obtain ⟨d, hd⟩ := gldLoop_found s (pySplit fp).1 (pySplit fp).2 snapshot none [] h
  refine ⟨d, hd, ?_, ?_⟩
  · unfold ensure_library_link get_library_dataset
    rcases hq : gldLoop s (pySplit fp).1 (pySplit fp).2 snapshot none [] with ⟨o, cs⟩
    rw [hq] at hd
    simp only at hd
    subst hd
    simp
  · intro call hcall
    unfold get_library_dataset at hcall
    rcases gldLoop_calls_show s (pySplit fp).1 (pySplit fp).2 snapshot none [] call hcall with
      hin | ⟨fid, rfl⟩
    · simp at hin
    · exact ⟨rfl, rfl⟩

/-- Instantiation of the C6 theorem at a concrete already-linked file. -/
theorem claim_c6_witness :
    (∃ folder ∈ [(⟨1, "/d".data⟩ : Folder)],
      (pySplit "d/x".data).1 = folder.name.dropWhile (fun ch => ch == '/') ∧
      ∃ item ∈ itemsOf ⟨[], [(1, ⟨10, "x".data⟩)], 20⟩ folder.id,
        item.name = (pySplit "d/x".data).2) ∧
    ∃ d, (get_library_dataset [(⟨1, "/d".data⟩ : Folder)]
        ⟨[], [(1, ⟨10, "x".data⟩)], 20⟩ "d/x".data).1 = some d ∧
      ensure_library_link [(⟨1, "/d".data⟩ : Folder)] ⟨[], [(1, ⟨10, "x".data⟩)], 20⟩
          "d/x".data THERMO_FILE_TYPE =
        Except.ok (d, ⟨[], [(1, ⟨10, "x".data⟩)], 20⟩,
          (get_library_dataset [(⟨1, "/d".data⟩ : Folder)]
            ⟨[], [(1, ⟨10, "x".data⟩)], 20⟩ "d/x".data).2) ∧
      ∀ call ∈ (get_library_dataset [(⟨1, "/d".data⟩ : Folder)]
          ⟨[], [(1, ⟨10, "x".data⟩)], 20⟩ "d/x".data).2,
        isCreate call = false ∧ isUpload call = false := by
  have hh : ∃ folder ∈ [(⟨1, "/d".data⟩ : Folder)],
      (pySplit "d/x".data).1 = folder.name.dropWhile (fun ch => ch == '/') ∧
      ∃ item ∈ itemsOf ⟨[], [(1, ⟨10, "x".data⟩)], 20⟩ folder.id,
        item.name = (pySplit "d/x".data).2 := by decide
  exact ⟨hh, claim_c6 [(⟨1, "/d".data⟩ : Folder)] ⟨[], [(1, ⟨10, "x".data⟩)], 20⟩
    "d/x".data THERMO_FILE_TYPE hh⟩

/-- Fixture for the C7 analysis: two snapshot folders share the name "/d". -/
def snapDup : List Folder := [⟨1, "/d".data⟩, ⟨2, "/d".data⟩]

/-- Fixture for the C7 analysis: folder 1 holds dataset 10 named "x" and
folder 2 holds dataset 11 named "x". -/
def stateDup : GState := ⟨[], [(1, ⟨10, "x".data⟩), (2, ⟨11, "x".data⟩)], 20⟩

/-- C7 counterexample: with two folders matching the directory, both are
searched (the call list shows folder 1 first), the first match found during
the scan is dataset 10 from folder 1, yet the lookup returns dataset 11 from
folder 2 — the last matching folder wins, not the first match found. -/
theorem claim_c7_counterexample :
    get_library_dataset snapDup stateDup "d/x".data =
      (some ⟨11, "x".data⟩, [RCall.showFolder 1, RCall.showFolder 2]) ∧
    (itemsOf stateDup 1).find? (fun item => item.name == "x".data) =
      some ⟨10, "x".data⟩ ∧
    (⟨11, "x".data⟩ : Dataset) ≠ ⟨10, "x".data⟩ :=
  ⟨by rfl, by rfl, by decide⟩

/-- C7 as amended: within one matching folder the first item carrying the
file's name is taken, but across several matching folders the scan continues
and a later folder's match overwrites an earlier one, so the dataset of the
last matching folder that contains the name is returned; duplicates are
still tolerated, never an error. -/
theorem claim_c7_amended (snap1 snap2 : List Folder) (s : GState) (fp : Str) (d : Dataset)
    (h : (get_library_dataset snap2 s fp).1 = some d) :
    (get_library_dataset (snap1 ++ snap2) s fp).1 = some d ∧
    ∀ folder : Folder,
      ((pySplit fp).1 == folder.name.dropWhile (fun ch => ch == '/')) = true →
      (get_library_dataset [folder] s fp).1 =
        (itemsOf s folder.id).find? (fun item => item.name == (pySplit fp).2) := by
  constructor
  · unfold get_library_dataset at h ⊢
    rw [gldLoop_append]
    exact gldLoop_override s _ _ snap2 d _ h _ _
  · intro folder hmatch
    unfold get_library_dataset
    simp only [gldLoop, hmatch, if_true]
    rcases hfind : (itemsOf s folder.id).find? (fun item => item.name == (pySplit fp).2)
      with _ | item <;> simp [hfind, gldLoop]

/-- Instantiation of the amended C7 theorem on the duplicate fixture. -/
theorem claim_c7_amended_witness :
    (get_library_dataset [(⟨2, "/d".data⟩ : Folder)] stateDup "d/x".data).1 =
      some ⟨11, "x".data⟩ ∧
    (get_library_dataset ([⟨1, "/d".data⟩] ++ [(⟨2, "/d".data⟩ : Folder)])
      stateDup "d/x".data).1 = some ⟨11, "x".data⟩ := by
  have hh : (get_library_dataset [(⟨2, "/d".data⟩ : Folder)] stateDup "d/x".data).1 =
      some ⟨11, "x".data⟩ := by rfl
  exact ⟨hh, (claim_c7_amended [⟨1, "/d".data⟩] [⟨2, "/d".data⟩] stateDup "d/x".data
    ⟨11, "x".data⟩ hh).1⟩

/-! ## Runs over a fresh remote library -/

theorem filter_nil_of_short (s : GState) (rp : Str) (c : Str)
    (h : ∀ f ∈ s.folders, f.name.length ≤ rp.length) :
    s.folders.filter (fun f => f.name == rp ++ '/' :: c) = [] := by
  rw [List.filter_eq_nil_iff]
  intro f hf
  simp only [beq_iff_eq]
  intro heq
  have hlen := h f hf
  rw [heq] at hlen
  simp [List.length_append] at hlen

theorem createFolder_name (s : GState) (c : Str) (pid : Nat) (rp : Str)
    (hInv : InvFresh s pid rp) :
    (createFolder s c pid).1.name = rp ++ '/' :: c ∧
    (createFolder s c pid).1.id = s.nextId := by
  unfold createFolder
  rcases hInv.2 with ⟨hnone, rfl⟩ | ⟨f, hsome, hname⟩
  · rw [hnone]
    exact ⟨rfl, rfl⟩
  · rw [hsome]
    refine ⟨?_, rfl⟩
    show f.name ++ '/' :: c = rp ++ '/' :: c
    rw [hname]

theorem InvFresh_step (s : GState) (c : Str) (pid : Nat) (rp : Str)
    (hInv : InvFresh s pid rp) :
    InvFresh (createFolder s c pid).2 (createFolder s c pid).1.id (rp ++ '/' :: c) := by
  obtain ⟨hname, hid⟩ := createFolder_name s c pid rp hInv
  constructor
  · intro f hf
    have hfolders : (createFolder s c pid).2.folders =
        s.folders ++ [(createFolder s c pid).1] := rfl
    have hnext : (createFolder s c pid).2.nextId = s.nextId + 1 := rfl
    rw [hfolders] at hf
    rw [hnext]
    rcases List.mem_append.mp hf with hf1 | hf2
    · obtain ⟨h1, h2⟩ := hInv.1 f hf1
      refine ⟨le_trans h1 ?_, by omega⟩
      simp [List.length_append]
    · have : f = (createFolder s c pid).1 := by simpa using hf2
      subst this
      rw [hname, hid]
      exact ⟨le_refl _, by omega⟩
  · right
    refine ⟨(createFolder s c pid).1, ?_, hname⟩
    have hfolders : (createFolder s c pid).2.folders =
        s.folders ++ [(createFolder s c pid).1] := rfl
    rw [hfolders]
    rw [find?_append_of_none]
    · simp
    · rw [List.find?_eq_none]
      intro g hg
      have := (hInv.1 g hg).2
      simp only [beq_iff_eq, hid]
      omega

theorem linkLoop_fresh (comps : List Str) : ∀ (s : GState) (pid : Nat) (rp : Str),
    InvFresh s pid rp →
    ∃ pid2 s2 calls, linkLoop s pid rp comps = Except.ok (pid2, s2, calls) ∧
      calls.countP isCreate = comps.length ∧
      calls.filter isUpload = [] ∧ calls.filter isInvoke = [] ∧
      s2.nextId = s.nextId + comps.length := by
  induction comps with
  | nil =>
    intro s pid rp _
    exact ⟨pid, s, [], rfl, rfl, rfl, rfl, rfl⟩
  | cons c rest ih =>
    intro s pid rp hInv
    have hfil := filter_nil_of_short s rp c (fun f hf => (hInv.1 f hf).1)
    obtain ⟨pid2, s2, calls, hloop, hcount, hup, hinv2, hnext⟩ :=
      ih (createFolder s c pid).2 (createFolder s c pid).1.id (rp ++ '/' :: c)
        (InvFresh_step s c pid rp hInv)
    refine ⟨pid2, s2,
      RCall.getFoldersByName (rp ++ '/' :: c) :: RCall.createFolder c pid :: calls,
      ?_, ?_, ?_, ?_, ?_⟩
    · rw [linkLoop_step_nil s pid rp c rest hfil, hloop]
    · simp [List.countP_cons, isCreate, hcount]
    · simp [List.filter_cons, isUpload, hup]
    · simp [List.filter_cons, isInvoke, hinv2]
    · have : (createFolder s c pid).2.nextId = s.nextId + 1 := rfl
      rw [hnext, this, List.length_cons]
      omega

/-- C8: running the default mode on a single-line list holding one eligible,
unconverted raw path against an empty remote library (no folders, empty
folder snapshot, so no existing dataset) performs exactly one folder
creation per directory component of the path, exactly one reference upload
tagged with the thermo raw file type, and exactly one workflow invocation
whose principal input is the dataset id returned by that upload. -/
theorem claim_c8 (fs : Str → Bool) (s : GState) (line : Str)
    (hfolders : s.folders = [])
    (hallow : is_allowed_raw_path (normLine line) = true)
    (hconv : fs (get_mzml_path (normLine line)) = false) :
    ∃ s2 calls pid dsId,
      mainLoop ⟨false, false⟩ fs [] s [line] = Except.ok (s2, calls) ∧
      calls.countP isCreate = (dirComponents (normLine line)).length ∧
      calls.filter isUpload =
        [RCall.upload (pyJoin2 EXPORT_PATH_PREFIX (normLine line)) pid
          THERMO_FILE_TYPE dsId] ∧
      calls.filter isInvoke =
        [RCall.invokeWorkflow CONVERSION_WORKFLOW_ID dsId (get_mzml_path (normLine line))
          ("conversion of ".data ++
            (pySplit (pyJoin2 EXPORT_PATH_PREFIX (normLine line))).2)] := by
  have hInv : InvFresh s LIBRARY_ROOT_FOLDER_ID [] := by
    constructor
    · rw [hfolders]
      intro f hf
      simp at hf
    · left
      rw [hfolders]
      exact ⟨rfl, rfl⟩
  obtain ⟨pid2, s2, calls, hloop, hcount, hup, hinv, hnext⟩ :=
    linkLoop_fresh (dirComponents (normLine line)) s LIBRARY_ROOT_FOLDER_ID [] hInv
  have hlink := link_upload_target s (normLine line) THERMO_FILE_TYPE pid2 s2 calls hloop
  have hgld : get_library_dataset [] s (normLine line) = (none, []) := rfl
  have hconv2 : is_converted fs (normLine line) = false := by
    unfold is_converted
    rw [hconv]
    rfl
  have hens : ensure_library_link [] s (normLine line) THERMO_FILE_TYPE =
      Except.ok (⟨s2.nextId, (pySplit (pyJoin2 EXPORT_PATH_PREFIX (normLine line))).2⟩,
        { s2 with
            nextId := s2.nextId + 1,
            contents := s2.contents ++
              [(pid2, ⟨s2.nextId,
                (pySplit (pyJoin2 EXPORT_PATH_PREFIX (normLine line))).2⟩)] },
        [] ++ (calls ++ [RCall.getFoldersById pid2,
          RCall.upload (pyJoin2 EXPORT_PATH_PREFIX (normLine line)) pid2
            THERMO_FILE_TYPE s2.nextId])) := by
    simp only [ensure_library_link, hgld, hlink]
  have hproc : processLine ⟨false, false⟩ fs [] s line =
      Except.ok ({ s2 with
          nextId := s2.nextId + 1,
          contents := s2.contents ++
            [(pid2, ⟨s2.nextId,
              (pySplit (pyJoin2 EXPORT_PATH_PREFIX (normLine line))).2⟩)] },
        ([] ++ (calls ++ [RCall.getFoldersById pid2,
          RCall.upload (pyJoin2 EXPORT_PATH_PREFIX (normLine line)) pid2
            THERMO_FILE_TYPE s2.nextId])) ++
          [RCall.invokeWorkflow CONVERSION_WORKFLOW_ID s2.nextId
            (get_mzml_path (normLine line))
            ("conversion of ".data ++
              (pySplit (pyJoin2 EXPORT_PATH_PREFIX (normLine line))).2)]) := by
    simp only [processLine, hallow, hconv2, Bool.not_true, Bool.false_eq_true, if_false,
      Bool.not_false, if_true, hens, run_conversion_workflow]
  refine ⟨{ s2 with
      nextId := s2.nextId + 1,
      contents := s2.contents ++
        [(pid2, ⟨s2.nextId, (pySplit (pyJoin2 EXPORT_PATH_PREFIX (normLine line))).2⟩)] },
    ([] ++ (calls ++ [RCall.getFoldersById pid2,
      RCall.upload (pyJoin2 EXPORT_PATH_PREFIX (normLine line)) pid2
        THERMO_FILE_TYPE s2.nextId])) ++
      [RCall.invokeWorkflow CONVERSION_WORKFLOW_ID s2.nextId
        (get_mzml_path (normLine line))
        ("conversion of ".data ++
          (pySplit (pyJoin2 EXPORT_PATH_PREFIX (normLine line))).2)],
    pid2, s2.nextId, ?_, ?_, ?_, ?_⟩
  · simp only [mainLoop, hproc, List.append_nil]
  · simp [List.countP_append, List.countP_cons, isCreate, hcount]
  · simp [List.filter_append, List.filter_cons, isUpload, hup]
  · simp [List.filter_append, List.filter_cons, isInvoke, hinv]

/-- Instantiation of the C8 theorem on a concrete two-level raw path against
an empty remote library. -/
theorem claim_c8_witness :
    is_allowed_raw_path (normLine "./A/RAW_profile/s.raw".data) = true ∧
    ((fun _ => false : Str → Bool) (get_mzml_path (normLine "./A/RAW_profile/s.raw".data)) =
      false) ∧
    ∃ s2 calls pid dsId,
      mainLoop ⟨false, false⟩ (fun _ => false) [] ⟨[], [], 1⟩
          ["./A/RAW_profile/s.raw".data] = Except.ok (s2, calls) ∧
      calls.countP isCreate =
        (dirComponents (normLine "./A/RAW_profile/s.raw".data)).length ∧
      calls.filter isUpload =
        [RCall.upload (pyJoin2 EXPORT_PATH_PREFIX (normLine "./A/RAW_profile/s.raw".data))
          pid THERMO_FILE_TYPE dsId] ∧
      calls.filter isInvoke =
        [RCall.invokeWorkflow CONVERSION_WORKFLOW_ID dsId
          (get_mzml_path (normLine "./A/RAW_profile/s.raw".data))
          ("conversion of ".data ++
            (pySplit (pyJoin2 EXPORT_PATH_PREFIX
              (normLine "./A/RAW_profile/s.raw".data))).2)] :=
  ⟨by decide, rfl,
    claim_c8 (fun _ => false) ⟨[], [], 1⟩ "./A/RAW_profile/s.raw".data rfl (by decide) rfl⟩

